import Mathlib

/-!
Verification of the Meridian cart store (`src/js/cart.js`).

The cart module keeps an ordered list of line items
`{ id: string, name: string, price: number, qty: number }` in a single
localStorage key, and exposes `getCart` / `saveCart` plus the mutating
operations `addToCart`, `addItem`, `removeFromCart`, `updateQuantity`,
`clearCart`.

Modelling choices (shallow embedding):
* JS numbers are modelled as `Rat` (prices) and `Int` (quantities).  The
  result of `parseInt(x, 10)` is modelled as `Option Int` (`none` = `NaN`);
  the result of `Number(x)` is modelled as `Option Rat` (`none` = `NaN`).
* `localStorage` holds one value for the cart key.  `JSON.parse` /
  `JSON.stringify` are platform builtins, not code of this repository, so
  the persisted payload is modelled at the level of the JSON value the
  platform produces: either the key is missing, or the stored text fails
  to parse (`JSON.parse` throws), or it parses to a JSON value.  The
  platform contract `JSON.parse (JSON.stringify v) = v` on JSON values is
  what collapses the string level; everything the repository itself does
  (store unmodified, return the parsed value unmodified, fall back to `[]`)
  is embedded faithfully.
* The mutating operations are embedded as pure functions
  `List Item → List Item`, exactly mirroring the loops in `cart.js`
  (first-match update with `break`, `push` at the end, `filter`).
-/

namespace Meridian

/-- One cart line item, as persisted by `cart.js`:
`{ id: string, name: string, price: number, qty: number }`. -/
structure Item where
  id : String
  name : String
  price : Rat
  qty : Int
deriving DecidableEq, Repr

/-- JS `q || 1` on a number already known to be an integer (used by
`cart.js` in `(existing.qty || 1) + …`): `0` is falsy, every other integer
is truthy. -/
def jsOr1 (q : Int) : Int :=
  if q = 0 then 1 else q

/-- JS `parseInt(qty, 10) || 1` from `addItem` (line 98 of `cart.js`):
`none` models a `NaN` parse result (missing or non-numeric argument) and
yields the default `1`; a parse result of `0` is falsy and also yields `1`;
any other integer is returned as is. -/
def effQty : Option Int → Int
  | none => 1
  | some q => if q = 0 then 1 else q

/-- JS `Number(price) || 0` from `addToCart` / `addItem`:
`none` models a `NaN` coercion result and yields `0`; a numeric `0` is
falsy and yields `0` (which is the same value); any other number is
returned as is — in particular negative numbers are NOT clamped. -/
def numberOr0 : Option Rat → Rat
  | none => 0
  | some p => if p = 0 then 0 else p

/-- The ids of the cart's items, in order. -/
def ids (cart : List Item) : List String :=
  cart.map Item.id

/-- The first-match-and-break loop of `addToCart` / `addItem`: find the
first item whose `id` matches and replace its quantity by
`(existing.qty || 1) + k`; every other item is untouched. -/
def bumpQtyFirst (pid : String) (k : Int) : List Item → List Item
  | [] => []
  | it :: rest =>
    if it.id = pid then ⟨it.id, it.name, it.price, jsOr1 it.qty + k⟩ :: rest
    else it :: bumpQtyFirst pid k rest

/-- The first-match-and-break loop of `updateQuantity`: set the first
matching item's quantity to `q`; every other item is untouched. -/
def setQtyFirst (pid : String) (q : Int) : List Item → List Item
  | [] => []
  | it :: rest =>
    if it.id = pid then ⟨it.id, it.name, it.price, q⟩ :: rest
    else it :: setQtyFirst pid q rest

/-- `addToCart(productId, name, price)` (`cart.js` lines 61–85), on the cart
list it reads from storage: if an item with this id exists, its quantity
becomes `(existing.qty || 1) + 1`; otherwise a new item
`{id, name, price: Number(price) || 0, qty: 1}` is pushed.  (`String(productId)`
and `String(name)` are identities here because ids and names are modelled
as strings.) -/
def addToCart (cart : List Item) (productId name : String) (price : Option Rat) : List Item :=
  if cart.any fun it => it.id = productId then
    bumpQtyFirst productId 1 cart
  else
    cart ++ [⟨productId, name, numberOr0 price, 1⟩]

/-- `addItem(productId, name, price, qty)` (`cart.js` lines 97–122):
`qty = parseInt(qty, 10) || 1`; if an item with this id exists, its
quantity becomes `(existing.qty || 1) + qty`; otherwise a new item
`{id, name, price: Number(price) || 0, qty}` is pushed. -/
def addItem (cart : List Item) (productId name : String) (price : Option Rat)
    (qty : Option Int) : List Item :=
  let q := effQty qty
  if cart.any fun it => it.id = productId then
    bumpQtyFirst productId q cart
  else
    cart ++ [⟨productId, name, numberOr0 price, q⟩]

/-- `removeFromCart(productId)` (`cart.js` lines 129–134):
`cart.filter(item => item.id !== productId)`. -/
def removeFromCart (cart : List Item) (productId : String) : List Item :=
  cart.filter fun it => it.id ≠ productId

/-- `updateQuantity(productId, qty)` (`cart.js` lines 153–170):
`qty = parseInt(qty, 10); if (isNaN(qty) || qty < 0) return;` —
a `NaN` or negative parse result leaves the cart unchanged;
`qty === 0` removes the item; otherwise the first matching item's
quantity is set to `qty`. -/
def updateQuantity (cart : List Item) (productId : String) (qty : Option Int) : List Item :=
  match qty with
  | none => cart
  | some q =>
    if q < 0 then cart
    else if q = 0 then removeFromCart cart productId
    else setQtyFirst productId q cart

/-- `clearCart()` (`cart.js` lines 176–178): `saveCart([])`. -/
def clearCart : List Item := []

/-- JSON values, the codomain of the platform's `JSON.parse`.  Numbers are
modelled as rationals. -/
inductive JsonVal where
  | jnull
  | jbool (b : Bool)
  | jnum (n : Rat)
  | jstr (s : String)
  | jarr (elems : List JsonVal)
  | jobj (fields : List (String × JsonVal))

/-- The persisted payload under the cart's storage key, seen through the
platform's `JSON.parse`: the key can be absent (`localStorage.getItem`
returns `null`, which is falsy), the stored text can fail to parse
(`JSON.parse` throws), or it parses to a JSON value. -/
inductive Payload where
  | missing
  | malformed
  | value (v : JsonVal)

/-- `getCart()` (`cart.js` lines 22–30): `raw ? JSON.parse(raw) : []` inside
`try/catch`; a missing key yields `[]`, a parse failure is caught and yields
`[]`, and a successful parse is returned unchanged (whatever value it is).
The function is total: no error propagates to the caller. -/
def getCart : Payload → JsonVal
  | .missing => .jarr []
  | .malformed => .jarr []
  | .value v => v

/-- The JSON value `JSON.stringify` serializes one cart item to:
an object with fields `id`, `name`, `price`, `qty`. -/
def encodeItem (it : Item) : JsonVal :=
  .jobj [("id", .jstr it.id), ("name", .jstr it.name),
         ("price", .jnum it.price), ("qty", .jnum (it.qty : Rat))]

/-- The JSON value `JSON.stringify` serializes a cart to: the array of its
items' objects, in order. -/
def encodeCart (cart : List Item) : JsonVal :=
  .jarr (cart.map encodeItem)

/-- `saveCart(cart)` (`cart.js` lines 38–47) on the successful write path:
`localStorage.setItem(KEY, JSON.stringify(cart))` replaces the persisted
payload with the serialized cart.  (A write failure is caught and logged;
that degradation is acknowledged separately in the spec and is not part of
the round-trip claim.) -/
def saveCart (cart : List Item) : Payload :=
  .value (encodeCart cart)

/-- Decoder for one persisted item object, used to state that a
round-tripped value is an equal cart: it succeeds exactly on the shape
`encodeItem` produces, requiring the quantity to be an integer. -/
def decodeItem : JsonVal → Option Item
  | .jobj [("id", .jstr i), ("name", .jstr n), ("price", .jnum p), ("qty", .jnum q)] =>
    if q.den = 1 then some ⟨i, n, p, q.num⟩ else none
  | _ => none

/-- Decoder for a list of persisted item objects, position by position. -/
def decodeItems : List JsonVal → Option (List Item)
  | [] => some []
  | v :: vs =>
    match decodeItem v, decodeItems vs with
    | some it, some its => some (it :: its)
    | _, _ => none

/-- Decoder for a persisted cart value: it must be an array of item
objects. -/
def decodeCart : JsonVal → Option (List Item)
  | .jarr elems => decodeItems elems
  | _ => none

/-- The quantity of the first item with the given id, if present (the
first match is the one every loop in `cart.js` operates on). -/
def qtyOf (cart : List Item) (pid : String) : Option Int :=
  (cart.find? fun it => it.id = pid).map Item.qty

/-- The unit price of the first item with the given id, if present. -/
def priceOf (cart : List Item) (pid : String) : Option Rat :=
  (cart.find? fun it => it.id = pid).map Item.price

/-- Cart states reachable from the empty cart through the public mutating
operations of `cart.js`, with arbitrary arguments. -/
inductive Reachable : List Item → Prop where
  | empty : Reachable []
  | step_addToCart (c : List Item) (pid n : String) (p : Option Rat) :
      Reachable c → Reachable (addToCart c pid n p)
  | step_addItem (c : List Item) (pid n : String) (p : Option Rat) (q : Option Int) :
      Reachable c → Reachable (addItem c pid n p q)
  | step_remove (c : List Item) (pid : String) :
      Reachable c → Reachable (removeFromCart c pid)
  | step_update (c : List Item) (pid : String) (q : Option Int) :
      Reachable c → Reachable (updateQuantity c pid q)
  | step_clear (c : List Item) :
      Reachable c → Reachable clearCart

/-- Cart states reachable from the empty cart through the public mutating
operations when every `addItem` call's effective quantity
`parseInt(qty, 10) || 1` is at least `1` — i.e. the `qty` argument is
absent/non-numeric, or parses to a nonnegative integer.  (`addItem` itself
does not guard against negative quantities.) -/
inductive PosReachable : List Item → Prop where
  | empty : PosReachable []
  | step_addToCart (c : List Item) (pid n : String) (p : Option Rat) :
      PosReachable c → PosReachable (addToCart c pid n p)
  | step_addItem (c : List Item) (pid n : String) (p : Option Rat) (q : Option Int) :
      1 ≤ effQty q → PosReachable c → PosReachable (addItem c pid n p q)
  | step_remove (c : List Item) (pid : String) :
      PosReachable c → PosReachable (removeFromCart c pid)
  | step_update (c : List Item) (pid : String) (q : Option Int) :
      PosReachable c → PosReachable (updateQuantity c pid q)
  | step_clear (c : List Item) :
      PosReachable c → PosReachable clearCart

/-- A sequence of `addItem` calls that all use the same id: each triple is
the `(name, price, qty)` of one call, with `qty` an integer parse result. -/
def addSeq (cart : List Item) (pid : String) :
    List (String × Option Rat × Int) → List Item
  | [] => cart
  | t :: rest => addSeq (addItem cart pid t.1 t.2.1 (some t.2.2)) pid rest

/-! ### Helper lemmas -/

theorem jsOr1_of_ne_zero (q : Int) (h : q ≠ 0) : jsOr1 q = q :=
  if_neg h

theorem jsOr1_of_pos (q : Int) (h : 1 ≤ q) : jsOr1 q = q :=
  jsOr1_of_ne_zero q (by omega)

theorem effQty_some_of_ne_zero (q : Int) (h : q ≠ 0) : effQty (some q) = q := by
  simp [effQty, h]

theorem numberOr0_some (p : Rat) : numberOr0 (some p) = p := by
  by_cases h : p = 0 <;> simp [numberOr0, h]

theorem ids_bumpQtyFirst (pid : String) (k : Int) (c : List Item) :
    ids (bumpQtyFirst pid k c) = ids c := by
  induction c with
  | nil => rfl
  | cons it rest ih =>
    simp only [bumpQtyFirst]
    split
    · simp [ids]
    · simp only [ids, List.map_cons] at ih ⊢
      rw [ih]

theorem ids_setQtyFirst (pid : String) (q : Int) (c : List Item) :
    ids (setQtyFirst pid q c) = ids c := by
  induction c with
  | nil => rfl
  | cons it rest ih =>
    simp only [setQtyFirst]
    split
    · simp [ids]
    · simp only [ids, List.map_cons] at ih ⊢
      rw [ih]

theorem length_bumpQtyFirst (pid : String) (k : Int) (c : List Item) :
    (bumpQtyFirst pid k c).length = c.length := by
  induction c with
  | nil => rfl
  | cons it rest ih =>
    simp only [bumpQtyFirst]
    split <;> simp [ih]

theorem any_id_iff (c : List Item) (pid : String) :
    (c.any fun it => it.id = pid) = true ↔ pid ∈ ids c := by
  simp [List.any_eq_true, ids, List.mem_map]

theorem qtyOf_bumpQtyFirst (pid : String) (k : Int) (c : List Item) :
    qtyOf (bumpQtyFirst pid k c) pid = (qtyOf c pid).map fun s => jsOr1 s + k := by
  induction c with
  | nil => rfl
  | cons it rest ih =>
    by_cases h : it.id = pid
    · simp [bumpQtyFirst, qtyOf, h]
    · simp only [bumpQtyFirst, if_neg h]
      simp only [qtyOf] at ih ⊢
      rw [List.find?_cons_of_neg, List.find?_cons_of_neg]
      · exact ih
      · simpa using h
      · simpa using h

theorem qtyOf_setQtyFirst (pid : String) (q : Int) (c : List Item) :
    qtyOf (setQtyFirst pid q c) pid = (qtyOf c pid).map fun _ => q := by
  induction c with
  | nil => rfl
  | cons it rest ih =>
    by_cases h : it.id = pid
    · simp [setQtyFirst, qtyOf, h]
    · simp only [setQtyFirst, if_neg h]
      simp only [qtyOf] at ih ⊢
      rw [List.find?_cons_of_neg, List.find?_cons_of_neg]
      · exact ih
      · simpa using h
      · simpa using h

theorem find?_id_eq_none_of_not_mem (c : List Item) (pid : String) (h : pid ∉ ids c) :
    (c.find? fun it => it.id = pid) = none := by
  rw [List.find?_eq_none]
  intro it hit
  simp only [decide_eq_true_eq]
  intro he
  exact h (List.mem_map.mpr ⟨it, hit, he⟩)

theorem qtyOf_append_of_not_mem (c l : List Item) (pid : String) (h : pid ∉ ids c) :
    qtyOf (c ++ l) pid = qtyOf l pid := by
  simp only [qtyOf, List.find?_append, find?_id_eq_none_of_not_mem c pid h, Option.none_or]

theorem priceOf_append_of_not_mem (c l : List Item) (pid : String) (h : pid ∉ ids c) :
    priceOf (c ++ l) pid = priceOf l pid := by
  simp only [priceOf, List.find?_append, find?_id_eq_none_of_not_mem c pid h, Option.none_or]

theorem mem_ids_of_qtyOf_eq_some (c : List Item) (pid : String) (s : Int)
    (h : qtyOf c pid = some s) : pid ∈ ids c := by
  simp only [qtyOf, Option.map_eq_some'] at h
  obtain ⟨it, hfind, -⟩ := h
  have hmem := List.mem_of_find?_eq_some hfind
  have hid : it.id = pid := by simpa using List.find?_some hfind
  exact List.mem_map.mpr ⟨it, hmem, hid⟩

theorem addToCart_eq_addItem_one (c : List Item) (pid n : String) (p : Option Rat) :
    addToCart c pid n p = addItem c pid n p (some 1) := by
  simp [addToCart, addItem, effQty]

theorem qtyOf_addItem_of_mem (c : List Item) (pid n : String) (p : Option Rat)
    (q : Option Int) (s : Int) (hs : qtyOf c pid = some s) :
    qtyOf (addItem c pid n p q) pid = some (jsOr1 s + effQty q) := by
  have hany : (c.any fun it => it.id = pid) = true :=
    (any_id_iff c pid).mpr (mem_ids_of_qtyOf_eq_some c pid s hs)
  simp [addItem, hany, qtyOf_bumpQtyFirst, hs]

theorem qtyOf_addItem_of_not_mem (c : List Item) (pid n : String) (p : Option Rat)
    (q : Option Int) (h : pid ∉ ids c) :
    qtyOf (addItem c pid n p q) pid = some (effQty q) := by
  have hany : ¬ (c.any fun it => it.id = pid) = true :=
    fun hh => h ((any_id_iff c pid).mp hh)
  simp only [addItem, if_neg hany]
  rw [qtyOf_append_of_not_mem c _ pid h]
  simp [qtyOf]

theorem priceOf_addItem_of_not_mem (c : List Item) (pid n : String) (p : Option Rat)
    (q : Option Int) (h : pid ∉ ids c) :
    priceOf (addItem c pid n p q) pid = some (numberOr0 p) := by
  have hany : ¬ (c.any fun it => it.id = pid) = true :=
    fun hh => h ((any_id_iff c pid).mp hh)
  simp only [addItem, if_neg hany]
  rw [priceOf_append_of_not_mem c _ pid h]
  simp [priceOf]

theorem ids_addItem_of_mem (c : List Item) (pid n : String) (p : Option Rat)
    (q : Option Int) (h : pid ∈ ids c) :
    ids (addItem c pid n p q) = ids c := by
  have hany : (c.any fun it => it.id = pid) = true := (any_id_iff c pid).mpr h
  simp [addItem, hany, ids_bumpQtyFirst]

theorem ids_addToCart_of_mem (c : List Item) (pid n : String) (p : Option Rat)
    (h : pid ∈ ids c) :
    ids (addToCart c pid n p) = ids c := by
  rw [addToCart_eq_addItem_one]
  exact ids_addItem_of_mem c pid n p (some 1) h

theorem ids_addItem_of_not_mem (c : List Item) (pid n : String) (p : Option Rat)
    (q : Option Int) (h : pid ∉ ids c) :
    ids (addItem c pid n p q) = ids c ++ [pid] := by
  have hany : ¬ (c.any fun it => it.id = pid) = true :=
    fun hh => h ((any_id_iff c pid).mp hh)
  simp only [addItem, if_neg hany]
  simp [ids]

theorem nodup_ids_addItem (c : List Item) (pid n : String) (p : Option Rat)
    (q : Option Int) (h : (ids c).Nodup) :
    (ids (addItem c pid n p q)).Nodup := by
  by_cases hmem : pid ∈ ids c
  · rw [ids_addItem_of_mem c pid n p q hmem]; exact h
  · rw [ids_addItem_of_not_mem c pid n p q hmem]
    simp [List.nodup_append, h, hmem]

theorem nodup_ids_removeFromCart (c : List Item) (pid : String) (h : (ids c).Nodup) :
    (ids (removeFromCart c pid)).Nodup := by
  have hsub : (ids (removeFromCart c pid)).Sublist (ids c) :=
    List.Sublist.map Item.id (List.filter_sublist c)
  exact List.Nodup.sublist hsub h

theorem nodup_ids_reachable (c : List Item) (h : Reachable c) : (ids c).Nodup := by
  induction h with
  | empty => simp [ids]
  | step_addToCart c pid n p _ ih =>
    rw [addToCart_eq_addItem_one]
    exact nodup_ids_addItem c pid n p (some 1) ih
  | step_addItem c pid n p q _ ih =>
    exact nodup_ids_addItem c pid n p q ih
  | step_remove c pid _ ih =>
    exact nodup_ids_removeFromCart c pid ih
  | step_update c pid q _ ih =>
    match q with
    | none => exact ih
    | some k =>
      simp only [updateQuantity]
      split
      · exact ih
      · split
        · exact nodup_ids_removeFromCart c pid ih
        · rw [ids_setQtyFirst]; exact ih
  | step_clear c _ => simp [clearCart, ids]

theorem qty_pos_bumpQtyFirst (pid : String) (k : Int) (c : List Item) (hk : 1 ≤ k)
    (hc : ∀ x ∈ c, 1 ≤ x.qty) :
    ∀ x ∈ bumpQtyFirst pid k c, 1 ≤ x.qty := by
  induction c with
  | nil => simp [bumpQtyFirst]
  | cons it rest ih =>
    intro x hx
    simp only [bumpQtyFirst] at hx
    split at hx
    · rcases List.mem_cons.mp hx with rfl | hmem
      · have h1 : 1 ≤ it.qty := hc it (List.mem_cons_self it rest)
        simp only [jsOr1_of_pos it.qty h1]
        omega
      · exact hc x (List.mem_cons_of_mem it hmem)
    · rcases List.mem_cons.mp hx with rfl | hmem
      · exact hc x (List.mem_cons_self x rest)
      · exact ih (fun y hy => hc y (List.mem_cons_of_mem it hy)) x hmem

theorem qty_pos_setQtyFirst (pid : String) (q : Int) (c : List Item) (hq : 1 ≤ q)
    (hc : ∀ x ∈ c, 1 ≤ x.qty) :
    ∀ x ∈ setQtyFirst pid q c, 1 ≤ x.qty := by
  induction c with
  | nil => simp [setQtyFirst]
  | cons it rest ih =>
    intro x hx
    simp only [setQtyFirst] at hx
    split at hx
    · rcases List.mem_cons.mp hx with rfl | hmem
      · exact hq
      · exact hc x (List.mem_cons_of_mem it hmem)
    · rcases List.mem_cons.mp hx with rfl | hmem
      · exact hc x (List.mem_cons_self x rest)
      · exact ih (fun y hy => hc y (List.mem_cons_of_mem it hy)) x hmem

theorem qty_pos_addItem (c : List Item) (pid n : String) (p : Option Rat) (q : Option Int)
    (hq : 1 ≤ effQty q) (hc : ∀ x ∈ c, 1 ≤ x.qty) :
    ∀ x ∈ addItem c pid n p q, 1 ≤ x.qty := by
  by_cases hany : (c.any fun it => it.id = pid) = true
  · simp only [addItem, if_pos hany]
    exact qty_pos_bumpQtyFirst pid (effQty q) c hq hc
  · simp only [addItem, if_neg hany]
    intro x hx
    rcases List.mem_append.mp hx with h1 | h2
    · exact hc x h1
    · rcases List.mem_singleton.mp h2 with rfl
      exact hq

theorem decodeItem_encodeItem (it : Item) : decodeItem (encodeItem it) = some it := by
  simp [decodeItem, encodeItem, Rat.den_intCast, Rat.num_intCast]

theorem decodeItems_map_encodeItem (cart : List Item) :
    decodeItems (cart.map encodeItem) = some cart := by
  induction cart with
  | nil => rfl
  | cons it rest ih =>
    simp [decodeItems, decodeItem_encodeItem, ih]

theorem qtyOf_addSeq_of_mem (pid : String) (calls : List (String × Option Rat × Int)) :
    ∀ (c : List Item) (s : Int), qtyOf c pid = some s → 1 ≤ s →
      (∀ t ∈ calls, 1 ≤ t.2.2) →
      qtyOf (addSeq c pid calls) pid = some (s + (calls.map fun t => t.2.2).sum) := by
  induction calls with
  | nil =>
    intro c s hs _ _
    simpa [addSeq] using hs
  | cons t rest ih =>
    intro c s hs hpos hall
    have ht : 1 ≤ t.2.2 := hall t (List.mem_cons_self t rest)
    have hstep : qtyOf (addItem c pid t.1 t.2.1 (some t.2.2)) pid
        = some (s + t.2.2) := by
      rw [qtyOf_addItem_of_mem c pid t.1 t.2.1 (some t.2.2) s hs]
      rw [jsOr1_of_pos s hpos, effQty_some_of_ne_zero t.2.2 (by omega)]
    have hrec := ih (addItem c pid t.1 t.2.1 (some t.2.2)) (s + t.2.2) hstep
      (by omega) (fun u hu => hall u (List.mem_cons_of_mem t hu))
    simp only [addSeq, hrec, List.map_cons, List.sum_cons]
    congr 1
    omega

/-! ### Claim theorems -/

/-- Claim C1: the claim says that for every cart and every parsed quantity
`qty ≤ 0`, `setQuantity(id, qty)` is equivalent to `remove(id)`.  The code
(and its own doc comment, `cart.js` line 149, "Removes the item if
qty <= 0") disagree: `updateQuantity` returns without touching the cart
when the parsed quantity is negative, and only removes at exactly `0`.
At the failing input — the one-item cart `[{id:"a", name:"n", price:1,
qty:2}]` with `qty = -1` — the update is a no-op while `remove("a")`
empties the cart, so the two results differ. -/
theorem C1_negative_qty_is_noop_not_remove :
    updateQuantity [⟨"a", "n", 1, 2⟩] "a" (some (-1)) = [⟨"a", "n", 1, 2⟩] ∧
    removeFromCart [⟨"a", "n", 1, 2⟩] "a" = [] ∧
    updateQuantity [⟨"a", "n", 1, 2⟩] "a" (some (-1)) ≠
      removeFromCart [⟨"a", "n", 1, 2⟩] "a" := by
  refine ⟨by norm_num [updateQuantity], ?_, ?_⟩
  · simp [removeFromCart]
  · intro h
    rw [show removeFromCart [(⟨"a", "n", 1, 2⟩ : Item)] "a" = [] from by simp [removeFromCart]]
      at h
    rw [show updateQuantity [(⟨"a", "n", 1, 2⟩ : Item)] "a" (some (-1))
        = [⟨"a", "n", 1, 2⟩] from by norm_num [updateQuantity]] at h
    cases h

/-- Claim C6: a missing persisted key and a payload that fails to parse as
JSON both make `getCart` return the empty cart (`[]`, which decodes to the
empty item list); `getCart` is total, so no error reaches the caller. -/
theorem C6_missing_or_malformed_yields_empty :
    getCart Payload.missing = JsonVal.jarr [] ∧
    getCart Payload.malformed = JsonVal.jarr [] ∧
    decodeCart (getCart Payload.missing) = some ([] : List Item) ∧
    decodeCart (getCart Payload.malformed) = some ([] : List Item) :=
  ⟨rfl, rfl, rfl, rfl⟩

/-- Claim C8: for every cart and every id, `setQuantity(id, 0)` produces
exactly the same cart as `remove(id)`: `updateQuantity` parses `0`, passes
the `isNaN`/negative guard, and takes the `qty === 0` branch, which calls
`removeFromCart` on the same cart. -/
theorem C8_setQuantity_zero_eq_remove (cart : List Item) (pid : String) :
    updateQuantity cart pid (some 0) = removeFromCart cart pid := by
  norm_num [updateQuantity]

/-- Claim C9: when the persisted payload is valid JSON that is not an
array — for example the text `5`, or an object literal — `getCart` returns
the parsed value unchanged (`return raw ? JSON.parse(raw) : []` performs no
shape check); the empty-cart fallback fires only for a missing key or a
parse failure. -/
theorem C9_parsed_value_returned_unchanged :
    (∀ v : JsonVal, getCart (Payload.value v) = v) ∧
    getCart (Payload.value (JsonVal.jnum 5)) = JsonVal.jnum 5 ∧
    getCart (Payload.value (JsonVal.jnum 5)) ≠ JsonVal.jarr [] ∧
    getCart (Payload.value (JsonVal.jobj [])) = JsonVal.jobj [] ∧
    (∀ p : Payload, getCart p = JsonVal.jarr [] →
      p = Payload.missing ∨ p = Payload.malformed ∨ p = Payload.value (JsonVal.jarr [])) := by
  refine ⟨fun v => rfl, rfl, fun h => ?_, rfl, fun p hp => ?_⟩
  · cases h
  · match p with
    | .missing => exact Or.inl rfl
    | .malformed => exact Or.inr (Or.inl rfl)
    | .value v => exact Or.inr (Or.inr (by rw [← hp]; rfl))

/-- Claim C7: persisting any cart with `saveCart` and reading it back with
`getCart` yields an equal cart — the same ids, names, prices and
quantities in the same order: the stored value is the serialized array,
`getCart` returns it unchanged, and decoding it recovers the original item
list exactly. -/
theorem C7_save_then_get_roundtrip (cart : List Item) :
    decodeCart (getCart (saveCart cart)) = some cart := by
  show decodeCart (encodeCart cart) = some cart
  simp only [encodeCart, decodeCart]
  exact decodeItems_map_encodeItem cart

/-- Claim C5: in every cart state reachable from the empty cart through the
public operations, each distinct id occurs in at most one line item (the
id list has no duplicates), and adding an id that is already present —
via `addItem` or `addToCart` — updates that item in place, leaving the id
list (and hence the number of entries) unchanged instead of appending a
duplicate. -/
theorem C5_ids_unique (c : List Item) (h : Reachable c) :
    (ids c).Nodup ∧
    ∀ (pid n : String) (p : Option Rat) (q : Option Int), pid ∈ ids c →
      ids (addItem c pid n p q) = ids c ∧ ids (addToCart c pid n p) = ids c := by
  refine ⟨nodup_ids_reachable c h, fun pid n p q hmem => ?_⟩
  exact ⟨ids_addItem_of_mem c pid n p q hmem, ids_addToCart_of_mem c pid n p hmem⟩

/-- Claim C5 witness: the singleton cart reached by one `addToCart` on the
empty cart has duplicate-free ids, and adding its id again preserves the
id list. -/
theorem C5_ids_unique_witness :
    (ids (addToCart [] "a" "n" (some 1))).Nodup ∧
    ids (addItem (addToCart [] "a" "n" (some 1)) "a" "m" (some 2) (some 3))
      = ids (addToCart [] "a" "n" (some 1)) := by
  have h := C5_ids_unique (addToCart [] "a" "n" (some 1))
    (Reachable.step_addToCart [] "a" "n" (some 1) Reachable.empty)
  exact ⟨h.1, ((h.2 "a" "m" (some 2) (some 3)) (by simp [addToCart, ids, numberOr0])).1⟩

/-- Claim C2 counterexample: the claim states that every reachable cart
state has only positive quantities, but `addItem` does not guard against
negative `qty` arguments — `parseInt(qty, 10) || 1` keeps any nonzero
integer.  The state `[{id:"a", name:"n", price:1, qty:-5}]`, reached from
the empty cart by the single public call `addItem("a", "n", 1, -5)`,
violates the invariant. -/
theorem C2_counterexample :
    Reachable [⟨"a", "n", 1, -5⟩] ∧
    ¬ ∀ x ∈ [(⟨"a", "n", 1, -5⟩ : Item)], 1 ≤ x.qty := by
  constructor
  · have h := Reachable.step_addItem [] "a" "n" (some 1) (some (-5)) Reachable.empty
    have e : addItem [] "a" "n" (some 1) (some (-5)) = [⟨"a", "n", 1, -5⟩] := by
      norm_num [addItem, numberOr0, effQty]
    exact e ▸ h
  · intro hall
    have h5 := hall ⟨"a", "n", 1, -5⟩ (List.mem_singleton.mpr rfl)
    exact absurd h5 (by decide)

/-- Claim C2, amended: in every cart state reachable from the empty cart
through the public operations, every line item's quantity is a positive
integer, provided each `addItem` call's effective quantity
`parseInt(qty, 10) || 1` is at least `1` — that is, its `qty` argument is
absent, non-numeric, or parses to a nonnegative integer.  (`addToCart`,
`removeFromCart`, `updateQuantity` and `clearCart` need no such proviso:
their own guards already preserve positivity.) -/
theorem C2_positive_quantities (c : List Item) (h : PosReachable c) :
    ∀ x ∈ c, 1 ≤ x.qty := by
  induction h with
  | empty => simp
  | step_addToCart c pid n p _ ih =>
    rw [addToCart_eq_addItem_one]
    exact qty_pos_addItem c pid n p (some 1) (by decide) ih
  | step_addItem c pid n p q hq _ ih =>
    exact qty_pos_addItem c pid n p q hq ih
  | step_remove c pid _ ih =>
    intro x hx
    exact ih x (List.mem_of_mem_filter hx)
  | step_update c pid q _ ih =>
    match q with
    | none => exact ih
    | some k =>
      simp only [updateQuantity]
      by_cases hneg : k < 0
      · rw [if_pos hneg]; exact ih
      · rw [if_neg hneg]
        by_cases hzero : k = 0
        · rw [if_pos hzero]
          intro x hx
          exact ih x (List.mem_of_mem_filter hx)
        · rw [if_neg hzero]
          exact qty_pos_setQtyFirst pid k c (by omega) ih
  | step_clear c _ => simp [clearCart]

/-- Claim C2 witness: the item of the cart reached by `addItem("a", "n", 1, 2)`
from the empty cart has a positive quantity. -/
theorem C2_positive_quantities_witness :
    1 ≤ (Item.mk "a" "n" 1 2).qty :=
  C2_positive_quantities (addItem [] "a" "n" (some 1) (some 2))
    (PosReachable.step_addItem [] "a" "n" (some 1) (some 2) (by decide) PosReachable.empty)
    ⟨"a", "n", 1, 2⟩
    (by norm_num [addItem, numberOr0, effQty])

/-- Claim C3 counterexample: the claim states that the unit price stored by
an add is always non-negative, but `Number(price) || 0` only replaces a
`NaN` (or zero) coercion result — a negative numeric price is stored
unchanged.  `addToCart("a", "n", -5)` on the empty cart stores price
`-5 < 0`. -/
theorem C3_counterexample :
    priceOf (addToCart [] "a" "n" (some (-5))) "a" = some (-5) ∧
    ¬ (0 : Rat) ≤ -5 := by
  constructor
  · norm_num [addToCart, priceOf, numberOr0]
  · norm_num

/-- Claim C3, amended: for every add (`addToCart` or `addItem`) that
appends a new line item, the stored unit price is `Number(price) || 0`:
invalid (non-numeric, `NaN`) input defaults to `0`, and a numeric input is
stored unchanged — so the stored price is non-negative exactly when the
coerced input is non-negative (negative prices are not clamped). -/
theorem C3_price_coercion (c : List Item) (pid n : String) (p : Option Rat)
    (q : Option Int) (h : pid ∉ ids c) :
    priceOf (addItem c pid n p q) pid = some (numberOr0 p) ∧
    priceOf (addToCart c pid n p) pid = some (numberOr0 p) ∧
    numberOr0 none = 0 ∧
    (∀ x : Rat, 0 ≤ x → 0 ≤ numberOr0 (some x)) := by
  refine ⟨priceOf_addItem_of_not_mem c pid n p q h, ?_, rfl, fun x hx => ?_⟩
  · rw [addToCart_eq_addItem_one]
    exact priceOf_addItem_of_not_mem c pid n p (some 1) h
  · rw [numberOr0_some]; exact hx

/-- Claim C3 witness: on the empty cart, an `addItem` with a non-numeric
price stores price `0`, and an `addToCart` with price `3` stores `3`. -/
theorem C3_price_coercion_witness :
    priceOf (addItem [] "a" "n" none (some 1)) "a" = some 0 ∧
    priceOf (addToCart [] "b" "m" (some 3)) "b" = some 3 := by
  constructor
  · exact (C3_price_coercion [] "a" "n" none (some 1) (by simp [ids])).1
  · have h := (C3_price_coercion [] "b" "m" (some 3) (some 1) (by simp [ids])).2.1
    rw [numberOr0_some] at h
    exact h

/-- Claim C4 counterexample: the claim states that the final quantity after
a same-id sequence of `addItem` calls equals the sum of the `qty`
arguments, but `parseInt(qty, 10) || 1` turns a `0` argument into `1`:
after the single call `addItem("a", "n", 1, 0)` on the empty cart, the sum
of the arguments is `0` while the stored quantity is `1`. -/
theorem C4_counterexample :
    (([("n", some 1, 0)] : List (String × Option Rat × Int)).map fun t => t.2.2).sum = 0 ∧
    qtyOf (addSeq [] "a" [("n", some 1, 0)]) "a" = some 1 ∧
    (1 : Int) ≠ 0 := by
  refine ⟨by simp, ?_, by decide⟩
  norm_num [addSeq, addItem, effQty, numberOr0, qtyOf]

/-- Claim C4, amended: for every sequence of `addItem` calls with the same
id whose `qty` arguments all parse to positive integers, starting from a
cart that does not contain that id, the final quantity of that id's line
item equals the sum of the individual `qty` arguments.  (Arguments that
parse to `0` or `NaN` are replaced by the default `1`, and an intermediate
zero quantity would be bumped by `existing.qty || 1`, so the unrestricted
claim fails.) -/
theorem C4_quantity_sum (c : List Item) (pid : String)
    (calls : List (String × Option Rat × Int))
    (hnot : pid ∉ ids c) (hne : calls ≠ [])
    (hpos : ∀ t ∈ calls, 1 ≤ t.2.2) :
    qtyOf (addSeq c pid calls) pid = some ((calls.map fun t => t.2.2).sum) := by
  match calls, hne with
  | t :: rest, _ =>
    have ht : 1 ≤ t.2.2 := hpos t (List.mem_cons_self t rest)
    have hfirst : qtyOf (addItem c pid t.1 t.2.1 (some t.2.2)) pid = some t.2.2 := by
      rw [qtyOf_addItem_of_not_mem c pid t.1 t.2.1 (some t.2.2) hnot]
      rw [effQty_some_of_ne_zero t.2.2 (by omega)]
    have := qtyOf_addSeq_of_mem pid rest (addItem c pid t.1 t.2.1 (some t.2.2)) t.2.2
      hfirst ht (fun u hu => hpos u (List.mem_cons_of_mem t hu))
    simpa [addSeq] using this

/-- Claim C4 witness: the calls `addItem("a", _, 2, 2)` then
`addItem("a", _, 3, 3)` on the empty cart leave quantity `5 = 2 + 3`. -/
theorem C4_quantity_sum_witness :
    qtyOf (addSeq [] "a" [("n", some 2, 2), ("m", some 3, 3)]) "a" = some 5 := by
  have h := C4_quantity_sum [] "a" [("n", some 2, 2), ("m", some 3, 3)]
    (by simp [ids]) (by simp) (by decide)
  simpa using h

/-- Claim C10 counterexample: the claim states that `addToCart` always
changes the stored quantity for its id by exactly `1`, but the increment is
`(existing.qty || 1) + 1`: on a cart whose item has quantity `0` (reachable
via `addItem` with a negative argument, or via an externally edited
payload), `addToCart` jumps the quantity from `0` to `2`. -/
theorem C10_counterexample :
    qtyOf [(⟨"a", "n", 1, 0⟩ : Item)] "a" = some 0 ∧
    qtyOf (addToCart [⟨"a", "n", 1, 0⟩] "a" "n" (some 1)) "a" = some 2 ∧
    (2 : Int) ≠ 0 + 1 := by
  refine ⟨?_, ?_, by decide⟩
  · norm_num [qtyOf]
  · norm_num [addToCart, qtyOf, bumpQtyFirst, jsOr1]

/-- Claim C10, amended: `addToCart(id, name, price)` takes no quantity
argument; when the id is absent it appends a new line item with quantity
`1`, and when the id is present it sets the quantity to
`(existing.qty || 1) + 1` — an increment by exactly `1` whenever the
existing quantity is nonzero (a stored quantity of `0` becomes `2`).
In both cases the id either gains its single entry or keeps its entry
count. -/
theorem C10_addToCart_increment (c : List Item) (pid n : String) (p : Option Rat) :
    (pid ∉ ids c →
      qtyOf (addToCart c pid n p) pid = some 1 ∧
      (addToCart c pid n p).length = c.length + 1) ∧
    (∀ s : Int, qtyOf c pid = some s → s ≠ 0 →
      qtyOf (addToCart c pid n p) pid = some (s + 1) ∧
      (addToCart c pid n p).length = c.length) := by
  constructor
  · intro h
    have hany : ¬ (c.any fun it => it.id = pid) = true :=
      fun hh => h ((any_id_iff c pid).mp hh)
    constructor
    · rw [addToCart_eq_addItem_one]
      rw [qtyOf_addItem_of_not_mem c pid n p (some 1) h]
      rfl
    · simp only [addToCart, if_neg hany]
      simp
  · intro s hs hz
    have hany : (c.any fun it => it.id = pid) = true :=
      (any_id_iff c pid).mpr (mem_ids_of_qtyOf_eq_some c pid s hs)
    constructor
    · rw [addToCart_eq_addItem_one]
      rw [qtyOf_addItem_of_mem c pid n p (some 1) s hs]
      rw [jsOr1_of_ne_zero s hz]
      rfl
    · simp only [addToCart, if_pos hany]
      exact length_bumpQtyFirst pid 1 c

/-- Claim C10 witness: on the empty cart `addToCart` appends quantity `1`,
and on a cart holding `{id:"a", qty:1}` it increments to `2` without
changing the entry count. -/
theorem C10_addToCart_increment_witness :
    (qtyOf (addToCart [] "a" "n" (some 2)) "a" = some 1 ∧
      (addToCart [] "a" "n" (some 2)).length = 1) ∧
    qtyOf (addToCart [⟨"a", "n", 2, 1⟩] "a" "n" (some 2)) "a" = some 2 ∧
    (addToCart [⟨"a", "n", 2, 1⟩] "a" "n" (some 2)).length = 1 := by
  refine ⟨?_, ?_⟩
  · exact (C10_addToCart_increment [] "a" "n" (some 2)).1 (by simp [ids])
  · exact (C10_addToCart_increment [⟨"a", "n", 2, 1⟩] "a" "n" (some 2)).2 1
      (by norm_num [qtyOf]) (by decide)

end Meridian
